import Mathlib

/-!
Shallow embedding of `platform_plugin_aspects/sinks/course_overview_sink.py`:
the staleness policy (`CourseOverviewSink.should_dump_item`) and the
flatten/annotate/dedupe pipeline (`XBlockSink.serialize_item`,
`XBlockSink.serialize_xblock`, `XBlockSink.get_xblocks_recursive`,
`XBlockSink.get_detached_xblocks`, `XBlockSink.strip_branch_and_version`).
-/

/-! ## Python naive datetime values, as produced by `datetime.datetime.strptime` -/

/-- A naive Python `datetime.datetime` value (no tzinfo: the parse format
`%Y-%m-%d %H:%M:%S.%f+00:00` treats the +00:00 suffix as literal text). -/
structure PyDateTime where
  year : Nat
  month : Nat
  day : Nat
  hour : Nat
  minute : Nat
  second : Nat
  microsecond : Nat
deriving DecidableEq, Repr

/-- Python comparison of naive datetimes: lexicographic on the seven fields. -/
def PyDateTime.lt (a b : PyDateTime) : Bool :=
  if a.year ≠ b.year then a.year < b.year
  else if a.month ≠ b.month then a.month < b.month
  else if a.day ≠ b.day then a.day < b.day
  else if a.hour ≠ b.hour then a.hour < b.hour
  else if a.minute ≠ b.minute then a.minute < b.minute
  else if a.second ≠ b.second then a.second < b.second
  else a.microsecond < b.microsecond

/-- Left-pad the decimal rendering of `n` with zeros to width 2
(Python `%02d`, used by `datetime.__str__`). -/
def pad2 (n : Nat) : String :=
  if n < 10 then "0" ++ toString n else toString n

/-- Left-pad the decimal rendering of `n` with zeros to width 4 (Python `%04d`). -/
def pad4 (n : Nat) : String :=
  if n < 10 then "000" ++ toString n
  else if n < 100 then "00" ++ toString n
  else if n < 1000 then "0" ++ toString n
  else toString n

/-- Left-pad the decimal rendering of `n` with zeros to width 6 (Python `%06d`). -/
def pad6 (n : Nat) : String :=
  if n < 10 then "00000" ++ toString n
  else if n < 100 then "0000" ++ toString n
  else if n < 1000 then "000" ++ toString n
  else if n < 10000 then "00" ++ toString n
  else if n < 100000 then "0" ++ toString n
  else toString n

/-- Python `str(d)` for a naive datetime: `YYYY-MM-DD HH:MM:SS` followed by
`.ffffff` only when the microsecond field is nonzero. -/
def pyDateTimeStr (d : PyDateTime) : String :=
  pad4 d.year ++ "-" ++ pad2 d.month ++ "-" ++ pad2 d.day ++ " " ++
    pad2 d.hour ++ ":" ++ pad2 d.minute ++ ":" ++ pad2 d.second ++
    (if d.microsecond = 0 then "" else "." ++ pad6 d.microsecond)

/-! ## `datetime.datetime.strptime(s, "%Y-%m-%d %H:%M:%S.%f+00:00")`

CPython compiles the format to an anchored regular expression:
`%Y` is exactly four digits; `%m`, `%d`, `%H`, `%M`, `%S` are one or two
digits whose value must lie in the field's range (each field here is
followed by a non-digit literal, so greedy digit-taking plus a range check
is equivalent to the alternation the regex uses); `%f` is one to six
digits, right-padded with zeros to microseconds; a space in the format
matches one or more whitespace characters; any leftover input is an error
("unconverted data remains").  The `datetime` constructor then enforces
`year >= 1`, `second <= 59` and that the day exists in the given month. -/

/-- Decimal value of a list of digit characters. -/
def natOfDigits (ds : List Char) : Nat :=
  ds.foldl (fun n c => n * 10 + (c.toNat - 48)) 0

/-- The characters Python's regex `\s` matches (ASCII portion). -/
def isSpaceChar (c : Char) : Bool :=
  c = ' ' || c = '\t' || c = '\n' || c = '\r' || c = '\x0b' || c = '\x0c'

/-- Consume a run of digits of length between `minLen` and `maxLen` whose
value lies in `[lo, hi]`; return the value and the remaining input. -/
def parseDigits (minLen maxLen lo hi : Nat) (cs : List Char) :
    Option (Nat × List Char) :=
  let p := cs.span Char.isDigit
  if minLen ≤ p.1.length ∧ p.1.length ≤ maxLen then
    let v := natOfDigits p.1
    if lo ≤ v ∧ v ≤ hi then some (v, p.2) else none
  else none

/-- Consume one expected literal character. -/
def parseLit (c : Char) (cs : List Char) : Option (List Char) :=
  match cs with
  | [] => none
  | d :: rest => if d = c then some rest else none

/-- Consume one or more whitespace characters (a space in a strptime format). -/
def parseWs (cs : List Char) : Option (List Char) :=
  let p := cs.span isSpaceChar
  if p.1.isEmpty then none else some p.2

/-- Gregorian leap-year rule used by `datetime`. -/
def isLeapYear (y : Nat) : Bool :=
  y % 4 = 0 && (y % 100 ≠ 0 || y % 400 = 0)

/-- Number of days in a month, as enforced by the `datetime` constructor. -/
def daysInMonth (y m : Nat) : Nat :=
  if m = 2 then (if isLeapYear y then 29 else 28)
  else if m = 4 ∨ m = 6 ∨ m = 9 ∨ m = 11 then 30
  else 31

/-- The `%Y-%m-%d` part of the format: year (exactly four digits), month
and day (one or two digits, range-checked), separated by literal dashes. -/
def parseYMD (cs : List Char) : Option (Nat × Nat × Nat × List Char) := do
  let (y, cs) ← parseDigits 4 4 0 9999 cs
  let cs ← parseLit '-' cs
  let (mo, cs) ← parseDigits 1 2 1 12 cs
  let cs ← parseLit '-' cs
  let (d, cs) ← parseDigits 1 2 1 31 cs
  some (y, mo, d, cs)

/-- The `%H:%M:%S` part of the format (the regex admits seconds up to 61;
the constructor check comes later). -/
def parseHMS (cs : List Char) : Option (Nat × Nat × Nat × List Char) := do
  let (h, cs) ← parseDigits 1 2 0 23 cs
  let cs ← parseLit ':' cs
  let (mi, cs) ← parseDigits 1 2 0 59 cs
  let cs ← parseLit ':' cs
  let (sec, cs) ← parseDigits 1 2 0 61 cs
  some (h, mi, sec, cs)

/-- The `.%f` part: a literal dot then one to six digits, right-padded with
zeros to a microsecond count. -/
def parseFrac (cs : List Char) : Option (Nat × List Char) := do
  let cs ← parseLit '.' cs
  let p := cs.span Char.isDigit
  if 1 ≤ p.1.length ∧ p.1.length ≤ 6 then
    some (natOfDigits p.1 * 10 ^ (6 - p.1.length), p.2)
  else none

/-- The literal `+00:00` tail of the format. -/
def parseUtcSuffix (cs : List Char) : Option (List Char) := do
  let cs ← parseLit '+' cs
  let cs ← parseLit '0' cs
  let cs ← parseLit '0' cs
  let cs ← parseLit ':' cs
  let cs ← parseLit '0' cs
  let cs ← parseLit '0' cs
  some cs

/-- Embedding of `datetime.datetime.strptime(s, "%Y-%m-%d %H:%M:%S.%f+00:00")`:
`some` of the parsed naive datetime, `none` when CPython would raise
(`ValueError` from the regex mismatch, leftover data, or the constructor's
range checks: `1 <= year`, `second <= 59`, day exists in the month). -/
def strptimeCourseFormat (s : String) : Option PyDateTime := do
  let (y, mo, d, cs) ← parseYMD s.data
  let cs ← parseWs cs
  let (h, mi, sec, cs) ← parseHMS cs
  let (micro, cs) ← parseFrac cs
  let cs ← parseUtcSuffix cs
  if cs ≠ [] then none
  else if y < 1 ∨ 59 < sec ∨ daysInMonth y mo < d then none
  else some ⟨y, mo, d, h, mi, sec, micro⟩

/-! ## `CourseOverviewSink.should_dump_item`

The two timestamps are obtained through `get_last_dumped_timestamp` (defined
in `base_sink.py`, outside this file's source) and `get_course_last_published`;
the embedding takes their results — optional strings — as parameters, which is
the contract the spec gives for the staleness policy.  The result is
`Except.error` when the Python code raises out of the function. -/

/-- The reason string built at lines 256-265 of the source: both parsed
timestamps rendered with `str(...)` around the comparison direction. -/
def dump_reason (dumpDt pubDt : PyDateTime) : String :=
  if PyDateTime.lt dumpDt pubDt then
    "Course has been published since last dump time - last dumped " ++
      pyDateTimeStr dumpDt ++ " < last published " ++ pyDateTimeStr pubDt
  else
    "Course has NOT been published since last dump time - last dumped " ++
      pyDateTimeStr dumpDt ++ " >= last published " ++ pyDateTimeStr pubDt

/-- Embedding of `CourseOverviewSink.should_dump_item`.  Note the Python truthiness test
`if course_last_dump_time and course_last_published_date is None` at line 244:
an empty dump-time string is falsy, so that guard is skipped for it. -/
def should_dump_item (course_last_dump_time course_last_published_date : Option String) :
    Except String (Bool × String) :=
  match course_last_dump_time with
  | none => .ok (true, "Course is not present in ClickHouse")
  | some dumpStr =>
    if dumpStr ≠ "" ∧ course_last_published_date = none then
      .ok (false, "No last modified date in CourseOverview")
    else
      match strptimeCourseFormat dumpStr with
      | none => .error ("ValueError: time data " ++ dumpStr ++
          " does not match format %Y-%m-%d %H:%M:%S.%f+00:00")
      | some dumpDt =>
        match course_last_published_date with
        | none => .error "TypeError: strptime() argument 1 must be str, not None"
        | some pubStr =>
          match strptimeCourseFormat pubStr with
          | none => .error ("ValueError: time data " ++ pubStr ++
              " does not match format %Y-%m-%d %H:%M:%S.%f+00:00")
          | some pubDt =>
            .ok (PyDateTime.lt dumpDt pubDt, dump_reason dumpDt pubDt)

example :
    strptimeCourseFormat "2024-01-01 00:00:00.000000+00:00" =
      some ⟨2024, 1, 1, 0, 0, 0, 0⟩ := by decide

example : strptimeCourseFormat "2024-01-01 00:00:00+00:00" = none := by decide

example : strptimeCourseFormat "" = none := by decide

example :
    strptimeCourseFormat "2024-2-29 1:2:3.5+00:00" =
      some ⟨2024, 2, 29, 1, 2, 3, 500000⟩ := by decide

example : strptimeCourseFormat "2023-02-29 01:02:03.5+00:00" = none := by decide

/-! ## Opaque keys (external `opaque_keys` library, interface only)

Modelled from the spec: the content store hands the engine nodes whose
identifier is a hierarchical location key carrying an (org, course, run)
triple, optional branch and version qualifiers, a block type and a block id;
`str(...)` renders it and `for_branch(None)` clears the branch (and, in the
library, also the version qualifier). -/

structure UsageKey where
  org : String
  course : String
  run : String
  branch : Option String
  version : Option String
  block_type : String
  block_id : String
deriving DecidableEq, Repr

/-- Modelled from the spec: `BlockUsageLocator.for_branch` of the external
`opaque_keys` library replaces the branch qualifier and clears the version
qualifier. -/
def UsageKey.for_branch (k : UsageKey) (b : Option String) : UsageKey :=
  { k with branch := b, version := none }

/-- Modelled from the spec: `str(...)` of the course key of a usage key
(external `opaque_keys` library). -/
def UsageKey.course_key_str (k : UsageKey) : String :=
  "course-v1:" ++ k.org ++ "+" ++ k.course ++ "+" ++ k.run ++
    (match k.branch with | some b => "+branch@" ++ b | none => "") ++
    (match k.version with | some v => "+version@" ++ v | none => "")

/-- Modelled from the spec: `str(...)` of a usage key (external
`opaque_keys` library). -/
def UsageKey.str (k : UsageKey) : String :=
  "block-v1:" ++ k.org ++ "+" ++ k.course ++ "+" ++ k.run ++
    (match k.branch with | some b => "+branch@" ++ b | none => "") ++
    (match k.version with | some v => "+version@" ++ v | none => "") ++
    "+type@" ++ k.block_type ++ "+block@" ++ k.block_id

/-! ## XBlock snapshots handed to the sink by the modulestore

`graded`, `completion_mode` and `edited_on` are accessed in the source with
`getattr(..., default)`: the attribute may be absent, hence `Option` fields
(`edited_on` modelled as its already-stringified form, since the source
immediately applies `str`). -/

inductive XBlock where
  | mk (location : UsageKey) (display_name_with_default : String)
      (graded : Option Bool) (completion_mode : Option String)
      (edited_on : Option String) (children : List XBlock)

def XBlock.location : XBlock → UsageKey
  | .mk l _ _ _ _ _ => l

def XBlock.display_name_with_default : XBlock → String
  | .mk _ d _ _ _ _ => d

def XBlock.graded : XBlock → Option Bool
  | .mk _ _ g _ _ _ => g

def XBlock.completion_mode : XBlock → Option String
  | .mk _ _ _ c _ _ => c

def XBlock.edited_on : XBlock → Option String
  | .mk _ _ _ _ e _ => e

/-- The call `parent_block.get_children()` of the modulestore: the ordered child list. -/
def XBlock.get_children : XBlock → List XBlock
  | .mk _ _ _ _ _ c => c

/-- The access `item.scope_ids.block_type`. -/
def XBlock.block_type (b : XBlock) : String :=
  b.location.block_type

/-! ## The serialized row (`XBlockSink.serialize_xblock`) -/

/-- The `json_data` dict built at lines 171-178 of the source; `section`,
`subsection`, `unit` and `tags` are inserted later by the `serialize_item`
loop, hence optional (absent until assigned). -/
structure JsonData where
  course : String
  run : String
  block_type : String
  detached : Nat
  graded : Nat
  completion_mode : String
  section_idx : Option Nat := none
  subsection_idx : Option Nat := none
  unit_idx : Option Nat := none
  tags : Option (List String) := none
deriving DecidableEq, Repr

/-- The `serialized_block` dict built at lines 181-193 of the source.  The
embedding keeps the embedded blob structured; `jsonFields` below gives the
key order in which `json.dumps` would serialize it. -/
structure SerializedBlock where
  org : String
  course_key : String
  location : String
  display_name : String
  xblock_data_json : JsonData
  order : Int
  edited_on : String
  dump_id : String
  time_last_dumped : String
deriving DecidableEq, Repr

/-- Python `str.replace` for the single-character pattern used at line 185
of the source: every occurrence of `pat` becomes `rep`. -/
def pyReplaceChar (pat rep : Char) : List Char → List Char
  | [] => []
  | c :: cs => (if c = pat then rep else c) :: pyReplaceChar pat rep cs

/-- Embedding of `XBlockSink.strip_branch_and_version`: `location.for_branch(None)`. -/
def strip_branch_and_version (location : UsageKey) : UsageKey :=
  location.for_branch none

/-- Embedding of `XBlockSink.serialize_xblock`.  Line 185 of the source reads
`item.display_name_with_default.replace("'", "'")`: both arguments are the
ASCII apostrophe (byte 0x27), so the pattern and the replacement coincide. -/
def serialize_xblock (item : XBlock) (detached_xblock_types : List String)
    (dump_id time_last_dumped : String) : SerializedBlock :=
  let course_key := item.location
  let block_type := item.block_type
  { org := course_key.org
    course_key := course_key.course_key_str
    location := (strip_branch_and_version item.location).str
    display_name :=
      String.mk (pyReplaceChar '\'' '\'' item.display_name_with_default.data)
    xblock_data_json :=
      { course := course_key.course
        run := course_key.run
        block_type := block_type
        detached := if detached_xblock_types.contains block_type then 1 else 0
        graded := if item.graded.getD false then 1 else 0
        completion_mode := item.completion_mode.getD "" }
    order := -1
    edited_on := item.edited_on.getD ""
    dump_id := dump_id
    time_last_dumped := time_last_dumped }

/-! ## Tree traversal and detached blocks -/

mutual

/-- Embedding of `XBlockSink.get_xblocks_recursive`: serialize the parent, then the
children in store order, depth first. -/
def get_xblocks_recursive (detached_xblock_types : List String)
    (dump_id time_last_dumped : String) : XBlock → List SerializedBlock
  | .mk loc dn g cm eo children =>
    serialize_xblock (.mk loc dn g cm eo children) detached_xblock_types
        dump_id time_last_dumped ::
      get_xblocks_recursive_children detached_xblock_types dump_id
        time_last_dumped children

/-- The `for child in parent_block.get_children(): items.extend(...)` loop. -/
def get_xblocks_recursive_children (detached_xblock_types : List String)
    (dump_id time_last_dumped : String) : List XBlock → List SerializedBlock
  | [] => []
  | b :: bs =>
    get_xblocks_recursive detached_xblock_types dump_id time_last_dumped b ++
      get_xblocks_recursive_children detached_xblock_types dump_id
        time_last_dumped bs

end

mutual

/-- Number of nodes reachable from a block through `get_children`. -/
def XBlock.count : XBlock → Nat
  | .mk _ _ _ _ _ children => 1 + XBlock.countList children

def XBlock.countList : List XBlock → Nat
  | [] => 0
  | b :: bs => XBlock.count b + XBlock.countList bs

end

/-- Embedding of `XBlockSink.get_detached_xblocks`: keep the blocks of a detached type,
in store order, and serialize them. -/
def get_detached_xblocks (course_blocks : List XBlock)
    (detached_xblock_types : List String)
    (dump_id time_last_dumped : String) : List SerializedBlock :=
  (course_blocks.filter
      (fun b => detached_xblock_types.contains b.block_type)).map
    (fun b => serialize_xblock b detached_xblock_types dump_id time_last_dumped)

/-! ## The annotation loop and dict-based dedupe of `serialize_item` -/

/-- Assignment `location_to_node[k] = v` on a Python dict modelled as an
ordered association list: an existing key keeps its position and gets the
new value, a new key is appended at the end. -/
def dictInsert {α : Type} : List (String × α) → String → α → List (String × α)
  | [], k, v => [(k, v)]
  | p :: rest, k, v =>
    if p.1 == k then (k, v) :: rest else p :: dictInsert rest k v

/-- Python dict lookup on the association-list model. -/
def dictFind {α : Type} (d : List (String × α)) (k : String) : Option α :=
  (d.find? (fun p => p.1 == k)).map Prod.snd

/-- The `location_to_node` dict that the `serialize_item` loop has built
once every block of `bs` has been assigned: key is the block's stripped
location, value the block, in insertion order. -/
def location_dict (bs : List SerializedBlock) : List (String × SerializedBlock) :=
  bs.foldl (fun d b => dictInsert d b.location b) []

/-- One iteration of the `for block in items` loop at lines 130-157 of the
source: assign `order`, zero the hierarchy for a detached block (Python
truthiness: `detached` is the int 0 or 1) or update the three counters by
block type, store the hierarchy, attach tags.  Returns the mutated block
and the counters for the next iteration. -/
def annotate_block (get_tags : String → List String)
    (index section_idx subsection_idx unit_idx : Nat)
    (block : SerializedBlock) : SerializedBlock × Nat × Nat × Nat :=
  let block := { block with order := (index : Int) }
  if block.xblock_data_json.detached ≠ 0 then
    ({ block with xblock_data_json :=
        { block.xblock_data_json with
            section_idx := some 0, subsection_idx := some 0, unit_idx := some 0,
            tags := some (get_tags block.location) } },
      section_idx, subsection_idx, unit_idx)
  else
    let c :=
      if block.xblock_data_json.block_type = "chapter" then
        (section_idx + 1, 0, 0)
      else if block.xblock_data_json.block_type = "sequential" then
        (section_idx, subsection_idx + 1, 0)
      else if block.xblock_data_json.block_type = "vertical" then
        (section_idx, subsection_idx, unit_idx + 1)
      else (section_idx, subsection_idx, unit_idx)
    ({ block with xblock_data_json :=
        { block.xblock_data_json with
            section_idx := some c.1, subsection_idx := some c.2.1,
            unit_idx := some c.2.2,
            tags := some (get_tags block.location) } },
      c.1, c.2.1, c.2.2)

/-- The whole `for block in items` loop: carries `index`, the three
counters and the `location_to_node` dict; returns the annotated blocks in
iteration order together with the final dict. -/
def annotate_loop (get_tags : String → List String) :
    Nat → Nat → Nat → Nat → List (String × SerializedBlock) →
    List SerializedBlock → List SerializedBlock × List (String × SerializedBlock)
  | _, _, _, _, location_to_node, [] => ([], location_to_node)
  | index, s, ss, u, location_to_node, block :: rest =>
    let r := annotate_block get_tags (index + 1) s ss u block
    let d := dictInsert location_to_node r.1.location r.1
    let res := annotate_loop get_tags (index + 1) r.2.1 r.2.2.1 r.2.2.2 d rest
    (r.1 :: res.1, res.2)

/-- The combined sequence of lines 113-122: the recursive traversal from the
course root followed by the detached blocks. -/
def combined_items (course_block : XBlock) (all_course_blocks : List XBlock)
    (detached_xblock_types : List String)
    (dump_id time_last_dumped : String) : List SerializedBlock :=
  get_xblocks_recursive detached_xblock_types dump_id time_last_dumped
      course_block ++
    get_detached_xblocks all_course_blocks detached_xblock_types dump_id
      time_last_dumped

/-- The combined sequence after the annotation loop, before deduplication
(the state of the Python `items` list when the loop has finished). -/
def annotated_items (course_block : XBlock) (all_course_blocks : List XBlock)
    (detached_xblock_types : List String) (get_tags : String → List String)
    (dump_id time_last_dumped : String) : List SerializedBlock :=
  (annotate_loop get_tags 0 0 0 0 []
      (combined_items course_block all_course_blocks detached_xblock_types
        dump_id time_last_dumped)).1

/-- Embedding of `XBlockSink.serialize_item`, with the external collaborators (the
modulestore's course tree and flat block list, the detached-type set, the
tag lookup) passed as parameters: annotate the combined sequence, then
return `list(location_to_node.values())`. -/
def serialize_item (course_block : XBlock) (all_course_blocks : List XBlock)
    (detached_xblock_types : List String) (get_tags : String → List String)
    (dump_id time_last_dumped : String) : List SerializedBlock :=
  ((annotate_loop get_tags 0 0 0 0 []
      (combined_items course_block all_course_blocks detached_xblock_types
        dump_id time_last_dumped)).2).map Prod.snd

/-! ## Field renderings (dict key order) -/

/-- A value of the top-level row dict. -/
inductive FieldValue where
  | str : String → FieldValue
  | int : Int → FieldValue
  | jsonBlob : JsonData → FieldValue
deriving DecidableEq, Repr

/-- A value of the embedded `json_data` dict. -/
inductive JsonValue where
  | str : String → JsonValue
  | int : Int → JsonValue
  | strList : List String → JsonValue
deriving DecidableEq, Repr

/-- The top-level row as the ordered key/value sequence of the Python dict
literal at lines 181-193 (dict literals preserve the written key order, and
the loop only ever reassigns existing keys). -/
def blockFields (b : SerializedBlock) : List (String × FieldValue) :=
  [("org", .str b.org),
   ("course_key", .str b.course_key),
   ("location", .str b.location),
   ("display_name", .str b.display_name),
   ("xblock_data_json", .jsonBlob b.xblock_data_json),
   ("order", .int b.order),
   ("edited_on", .str b.edited_on),
   ("dump_id", .str b.dump_id),
   ("time_last_dumped", .str b.time_last_dumped)]

/-- The embedded blob as the ordered key/value sequence of the Python dict:
the literal keys of lines 171-178 in written order, then `section`,
`subsection`, `unit` and `tags` in the order the `serialize_item` loop
inserts them, each present only once assigned. -/
def jsonFields (j : JsonData) : List (String × JsonValue) :=
  [("course", .str j.course),
   ("run", .str j.run),
   ("block_type", .str j.block_type),
   ("detached", .int j.detached),
   ("graded", .int j.graded),
   ("completion_mode", .str j.completion_mode)] ++
  (match j.section_idx with | some v => [("section", .int v)] | none => []) ++
  (match j.subsection_idx with | some v => [("subsection", .int v)] | none => []) ++
  (match j.unit_idx with | some v => [("unit", .int v)] | none => []) ++
  (match j.tags with | some v => [("tags", .strList v)] | none => [])

/-- The three hierarchy indices stored on a block (0 when not yet set). -/
def hierarchy (b : SerializedBlock) : Nat × Nat × Nat :=
  (b.xblock_data_json.section_idx.getD 0,
   b.xblock_data_json.subsection_idx.getD 0,
   b.xblock_data_json.unit_idx.getD 0)

/-! ## Claim-side reference definitions (used only to compare against the
code-derived definitions above) -/

/-- Counter update exactly as the claim words it: "chapter" increments
section and resets subsection and unit to 0, "sequential" increments
subsection and resets unit to 0, "vertical" increments unit, any other
type leaves all counters unchanged. -/
def claim_counter_update (c : Nat × Nat × Nat) (bt : String) : Nat × Nat × Nat :=
  if bt = "chapter" then (c.1 + 1, 0, 0)
  else if bt = "sequential" then (c.1, c.2.1 + 1, 0)
  else if bt = "vertical" then (c.1, c.2.1, c.2.2 + 1)
  else c

/-- Hierarchical indices as the claim words them: each non-detached record
receives the counter values after its own update, a detached record
receives (0, 0, 0) and leaves the counters unchanged. -/
def claim_indices (c : Nat × Nat × Nat) : List SerializedBlock → List (Nat × Nat × Nat)
  | [] => []
  | b :: bs =>
    if b.xblock_data_json.detached ≠ 0 then (0, 0, 0) :: claim_indices c bs
    else
      let c2 := claim_counter_update c b.xblock_data_json.block_type
      c2 :: claim_indices c2 bs

/-- Identifiers in order of first occurrence, as the claim words the output
iteration order of the dedupe. -/
def first_occurrence_keys (ks : List String) : List String :=
  ks.foldl (fun acc k => if acc.contains k then acc else acc ++ [k]) []

/-- The last record of the sequence carrying a given location, as the claim
words "keeps the last-seen record for each identifier". -/
def last_seen_with_location (k : String) (bs : List SerializedBlock) :
    Option SerializedBlock :=
  bs.foldl (fun acc b => if b.location == k then some b else acc) none

/-- Strict increase of a sequence of order values, read left to right. -/
def strictlyIncreasingB : List Int → Bool
  | [] => true
  | [_] => true
  | a :: b :: rest => a < b && strictlyIncreasingB (b :: rest)

/-! ## Concrete inputs used by witnesses and counterexamples -/

/-- A branch- and version-free usage key in the test course. -/
def mkKey (bt bid : String) : UsageKey :=
  ⟨"TestOrg", "TestCourse", "TestRun", none, none, bt, bid⟩

def scenario_v1 : XBlock := .mk (mkKey "vertical" "v1") "V1" none none none []
def scenario_s1 : XBlock :=
  .mk (mkKey "sequential" "s1") "S1" none none none [scenario_v1]
def scenario_c1 : XBlock :=
  .mk (mkKey "chapter" "c1") "C1" none none none [scenario_s1]
def scenario_c2 : XBlock := .mk (mkKey "chapter" "c2") "C2" none none none []
def scenario_root : XBlock :=
  .mk (mkKey "course" "root") "Root" none none none [scenario_c1, scenario_c2]
def scenario_d : XBlock := .mk (mkKey "html" "d1") "D" none none none []

/-- The flat `get_items` result for the scenario course: every block,
including the one detached html node D. -/
def scenario_all : List XBlock :=
  [scenario_root, scenario_c1, scenario_s1, scenario_v1, scenario_c2, scenario_d]

def scenario_output : List SerializedBlock :=
  serialize_item scenario_root scenario_all ["html"] (fun _ => []) "dump-1" "t1"

/-- A course whose detached html block is also reachable in the tree, ahead
of a sibling: the duplicate makes the dict dedupe overwrite the traversal
record with the later detached record. -/
def dup_html : XBlock := .mk (mkKey "html" "h1") "H" none none none []
def dup_vert : XBlock := .mk (mkKey "vertical" "v9") "V" none none none []
def dup_root : XBlock :=
  .mk (mkKey "course" "root") "Root" none none none [dup_html, dup_vert]

def dup_output : List SerializedBlock :=
  serialize_item dup_root [dup_html] ["html"] (fun _ => []) "dump-2" "t2"

/-- A fallback record (never reached by the witnesses). -/
def default_block : SerializedBlock :=
  { org := "", course_key := "", location := "", display_name := ""
    xblock_data_json :=
      { course := "", run := "", block_type := "", detached := 0, graded := 0
        completion_mode := "" }
    order := 0, edited_on := "", dump_id := "", time_last_dumped := "" }

example : (scenario_output.map SerializedBlock.order) = [1, 2, 3, 4, 5, 6] := by decide
example : (dup_output.map SerializedBlock.order) = [1, 4, 3] := by decide
example : (scenario_output.map (fun b => (hierarchy b).1)) = [0, 1, 1, 1, 2, 0] := by decide

/-! ## Helper lemmas: staleness policy -/

/-- The reason string contains the dump timestamp rendering as a substring. -/
lemma dump_reason_has_dump (dt pt : PyDateTime) :
    ∃ a b, dump_reason dt pt = a ++ pyDateTimeStr dt ++ b := by
  unfold dump_reason
  split
  · exact ⟨"Course has been published since last dump time - last dumped ",
      " < last published " ++ pyDateTimeStr pt, by rw [String.append_assoc]⟩
  · exact ⟨"Course has NOT been published since last dump time - last dumped ",
      " >= last published " ++ pyDateTimeStr pt, by rw [String.append_assoc]⟩

/-- The reason string contains the publish timestamp rendering as a substring. -/
lemma dump_reason_has_pub (dt pt : PyDateTime) :
    ∃ a b, dump_reason dt pt = a ++ pyDateTimeStr pt ++ b := by
  unfold dump_reason
  split
  · exact ⟨"Course has been published since last dump time - last dumped " ++
      pyDateTimeStr dt ++ " < last published ", "", by simp [String.append_assoc]⟩
  · exact ⟨"Course has NOT been published since last dump time - last dumped " ++
      pyDateTimeStr dt ++ " >= last published ", "", by simp [String.append_assoc]⟩

/-- The reason string contains the comparison direction as a substring. -/
lemma dump_reason_has_direction (dt pt : PyDateTime) :
    ∃ a b, dump_reason dt pt =
      a ++ (if PyDateTime.lt dt pt then " < " else " >= ") ++ b := by
  unfold dump_reason
  split
  · refine ⟨"Course has been published since last dump time - last dumped " ++
      pyDateTimeStr dt, "last published " ++ pyDateTimeStr pt, ?_⟩
    simp only [String.append_assoc]
    rfl
  · refine ⟨"Course has NOT been published since last dump time - last dumped " ++
      pyDateTimeStr dt, "last published " ++ pyDateTimeStr pt, ?_⟩
    simp only [String.append_assoc]
    rfl

/-- With both timestamps present, `should_dump_item` reaches the comparison
branch and its outcome is decided by the parses. -/
lemma should_dump_item_some_some (d p : String) :
    should_dump_item (some d) (some p) =
      match strptimeCourseFormat d with
      | none => .error ("ValueError: time data " ++ d ++
          " does not match format %Y-%m-%d %H:%M:%S.%f+00:00")
      | some dumpDt =>
        match strptimeCourseFormat p with
        | none => .error ("ValueError: time data " ++ p ++
            " does not match format %Y-%m-%d %H:%M:%S.%f+00:00")
        | some pubDt => .ok (PyDateTime.lt dumpDt pubDt, dump_reason dumpDt pubDt) := by
  unfold should_dump_item
  simp

/-! ## Claim C1 -/

/-- C1 (counterexample): the claim says that whenever the last-modified
timestamp is absent, `should_dump_item` returns `(False, ...)`; but with the
last-dump timestamp present as the empty string (falsy in Python), the guard
at line 244 is skipped and the function raises a parse error instead. -/
theorem c1_counterexample :
    should_dump_item (some "") none =
      Except.error ("ValueError: time data " ++ "" ++
        " does not match format %Y-%m-%d %H:%M:%S.%f+00:00") := by
  rfl

/-- C1 (amended): the staleness decision follows the three rules in order —
absent last-dump timestamp gives `(True, not-present reason)`; a present and
non-empty last-dump timestamp with an absent last-modified timestamp gives
`(False, no-modification-date reason)`; and for two present, parseable
timestamps the result is `(lastDump < lastModified, reason)` where the
reason contains both timestamp renderings and the comparison direction. -/
theorem c1_staleness_rules (d p : Option String) :
    (d = none →
      should_dump_item d p = .ok (true, "Course is not present in ClickHouse")) ∧
    (∀ s, d = some s → s ≠ "" → p = none →
      should_dump_item d p =
        .ok (false, "No last modified date in CourseOverview")) ∧
    (∀ s t dumpDt pubDt, d = some s → p = some t →
      strptimeCourseFormat s = some dumpDt →
      strptimeCourseFormat t = some pubDt →
      should_dump_item d p =
        .ok (PyDateTime.lt dumpDt pubDt, dump_reason dumpDt pubDt) ∧
      (∃ a b, dump_reason dumpDt pubDt = a ++ pyDateTimeStr dumpDt ++ b) ∧
      (∃ a b, dump_reason dumpDt pubDt = a ++ pyDateTimeStr pubDt ++ b) ∧
      (∃ a b, dump_reason dumpDt pubDt =
        a ++ (if PyDateTime.lt dumpDt pubDt then " < " else " >= ") ++ b)) := by
  refine ⟨?_, ?_, ?_⟩
  · rintro rfl
    rfl
  · rintro s rfl hs rfl
    unfold should_dump_item
    simp [hs]
  · rintro s t dumpDt pubDt rfl rfl hs ht
    refine ⟨?_, dump_reason_has_dump _ _, dump_reason_has_pub _ _,
      dump_reason_has_direction _ _⟩
    rw [should_dump_item_some_some, hs, ht]

/-- C1 (witness): the three amended rules at concrete inputs. -/
theorem c1_staleness_rules_witness :
    should_dump_item none (some "anything") =
      .ok (true, "Course is not present in ClickHouse") ∧
    should_dump_item (some "2024-01-01 00:00:00.000000+00:00") none =
      .ok (false, "No last modified date in CourseOverview") ∧
    should_dump_item (some "2024-01-01 00:00:00.000000+00:00")
        (some "2024-01-02 00:00:00.000000+00:00") =
      .ok (true, dump_reason ⟨2024, 1, 1, 0, 0, 0, 0⟩ ⟨2024, 1, 2, 0, 0, 0, 0⟩) :=
  ⟨(c1_staleness_rules none (some "anything")).1 rfl,
   (c1_staleness_rules (some "2024-01-01 00:00:00.000000+00:00") none).2.1
     "2024-01-01 00:00:00.000000+00:00" rfl (by decide) rfl,
   ((c1_staleness_rules (some "2024-01-01 00:00:00.000000+00:00")
        (some "2024-01-02 00:00:00.000000+00:00")).2.2
      "2024-01-01 00:00:00.000000+00:00" "2024-01-02 00:00:00.000000+00:00"
      ⟨2024, 1, 1, 0, 0, 0, 0⟩ ⟨2024, 1, 2, 0, 0, 0, 0⟩
      rfl rfl (by decide) (by decide)).1⟩

/-! ## Claim C5 -/

/-- C5: in the comparison branch (both timestamps present) each string is
parsed with the single fixed format `%Y-%m-%d %H:%M:%S.%f+00:00`; when
either fails to parse, `should_dump_item` propagates an error instead of
returning a dump decision, and when both parse it returns the comparison. -/
theorem c5_fixed_format_parse (d p : String) :
    ((strptimeCourseFormat d = none ∨ strptimeCourseFormat p = none) →
      ∃ e, should_dump_item (some d) (some p) = .error e) ∧
    (∀ dumpDt pubDt, strptimeCourseFormat d = some dumpDt →
      strptimeCourseFormat p = some pubDt →
      should_dump_item (some d) (some p) =
        .ok (PyDateTime.lt dumpDt pubDt, dump_reason dumpDt pubDt)) := by
  constructor
  · intro h
    rw [should_dump_item_some_some]
    rcases h with h | h
    · rw [h]
      exact ⟨_, rfl⟩
    · cases hd : strptimeCourseFormat d with
      | none => exact ⟨_, rfl⟩
      | some dumpDt => rw [h]; exact ⟨_, rfl⟩
  · intro dumpDt pubDt hd hp
    rw [should_dump_item_some_some, hd, hp]

/-- C5 (witness): a timestamp missing the fractional-seconds part does not
match the format and makes the decision error out. -/
theorem c5_fixed_format_parse_witness :
    ∃ e, should_dump_item (some "2024-01-01 00:00:00+00:00")
      (some "2024-01-02 00:00:00.000000+00:00") = .error e :=
  (c5_fixed_format_parse _ _).1 (Or.inl (by decide))

/-! ## Helper lemmas: the dict model -/

lemma mem_dictInsert {α : Type} (d : List (String × α)) (k : String) (v : α)
    (p : String × α) (hp : p ∈ dictInsert d k v) : p = (k, v) ∨ p ∈ d := by
  induction d with
  | nil => simpa [dictInsert] using hp
  | cons q rest ih =>
    by_cases hq : q.1 == k
    · simp only [dictInsert, hq, if_pos, List.mem_cons] at hp
      rcases hp with h | h
      · exact Or.inl h
      · exact Or.inr (List.mem_cons_of_mem _ h)
    · simp only [dictInsert, hq] at hp
      simp only [Bool.false_eq_true, if_false, List.mem_cons] at hp
      rcases hp with h | h
      · exact Or.inr (by simp [h])
      · rcases ih h with h' | h'
        · exact Or.inl h'
        · exact Or.inr (List.mem_cons_of_mem _ h')

lemma dictInsert_cons {α : Type} (q : String × α) (rest : List (String × α))
    (k : String) (v : α) :
    dictInsert (q :: rest) k v =
      if q.1 = k then (k, v) :: rest else q :: dictInsert rest k v := by
  by_cases h : q.1 = k <;> simp [dictInsert, h]

lemma dictFind_cons {α : Type} (q : String × α) (rest : List (String × α))
    (k : String) :
    dictFind (q :: rest) k = if q.1 = k then some q.2 else dictFind rest k := by
  by_cases h : q.1 = k
  · rw [if_pos h]
    unfold dictFind
    rw [List.find?_cons_of_pos _ (by simpa using h)]
    rfl
  · rw [if_neg h]
    unfold dictFind
    rw [List.find?_cons_of_neg _ (by simpa using h)]

lemma dictFind_dictInsert {α : Type} (d : List (String × α)) (k k' : String) (v : α) :
    dictFind (dictInsert d k v) k' = if k = k' then some v else dictFind d k' := by
  induction d with
  | nil =>
    show dictFind [(k, v)] k' = _
    rw [dictFind_cons]
  | cons q rest ih =>
    rw [dictInsert_cons]
    by_cases hq : q.1 = k
    · rw [if_pos hq, dictFind_cons, dictFind_cons]
      by_cases h : k = k'
      · simp [h]
      · have hq' : ¬q.1 = k' := fun hh => h (hq ▸ hh)
        simp [h, hq']
    · rw [if_neg hq, dictFind_cons, ih, dictFind_cons]
      split_ifs with h1 h2 <;>
        first
          | rfl
          | exact absurd (h1.trans h2.symm) hq

lemma keys_dictInsert {α : Type} (d : List (String × α)) (k : String) (v : α) :
    (dictInsert d k v).map Prod.fst =
      if k ∈ d.map Prod.fst then d.map Prod.fst
      else d.map Prod.fst ++ [k] := by
  induction d with
  | nil => simp [dictInsert]
  | cons q rest ih =>
    rw [dictInsert_cons]
    by_cases hq : q.1 = k
    · simp [hq]
    · rw [if_neg hq]
      have hk : ¬k = q.1 := fun hh => hq hh.symm
      simp only [List.map_cons, List.mem_cons, ih]
      by_cases hm : k ∈ rest.map Prod.fst
      · simp [hm, hk]
      · simp [hm, hk]

lemma dictInsert_of_not_mem {α : Type} (d : List (String × α)) (k : String) (v : α)
    (h : k ∉ d.map Prod.fst) : dictInsert d k v = d ++ [(k, v)] := by
  induction d with
  | nil => simp [dictInsert]
  | cons q rest ih =>
    simp only [List.map_cons, List.mem_cons] at h
    push_neg at h
    have hq : (q.1 == k) = false := by simp [beq_iff_eq]; exact fun hh => h.1 hh.symm
    simp [dictInsert, hq, ih h.2]

lemma dictFind_of_mem_nodup {α : Type} (d : List (String × α))
    (hn : (d.map Prod.fst).Nodup) (p : String × α) (hp : p ∈ d) :
    dictFind d p.1 = some p.2 := by
  induction d with
  | nil => simp at hp
  | cons q rest ih =>
    simp only [List.map_cons, List.nodup_cons] at hn
    rcases List.mem_cons.mp hp with h | h
    · subst h
      simp [dictFind, List.find?]
    · have hne : (q.1 == p.1) = false := by
        simp only [beq_eq_false_iff_ne, ne_eq]
        intro he
        exact hn.1 (he ▸ (List.mem_map_of_mem Prod.fst h))
      simp only [dictFind, List.find?, hne]
      exact ih hn.2 h

lemma keys_foldl_dictInsert (bs : List SerializedBlock) :
    ∀ acc : List (String × SerializedBlock),
      (bs.foldl (fun d b => dictInsert d b.location b) acc).map Prod.fst =
        (bs.map SerializedBlock.location).foldl
          (fun a k => if a.contains k then a else a ++ [k]) (acc.map Prod.fst) := by
  induction bs with
  | nil => intro acc; rfl
  | cons b rest ih =>
    intro acc
    simp only [List.foldl_cons, List.map_cons]
    rw [ih, keys_dictInsert]
    by_cases hm : b.location ∈ acc.map Prod.fst <;>
      simp [List.contains, hm]

/-- The keys of the dedupe dict are the identifiers in first-occurrence
order. -/
lemma keys_location_dict (bs : List SerializedBlock) :
    (location_dict bs).map Prod.fst =
      first_occurrence_keys (bs.map SerializedBlock.location) := by
  unfold location_dict first_occurrence_keys
  exact keys_foldl_dictInsert bs []

lemma dictFind_foldl_dictInsert (bs : List SerializedBlock) :
    ∀ (acc : List (String × SerializedBlock)) (k : String),
      dictFind (bs.foldl (fun d b => dictInsert d b.location b) acc) k =
        bs.foldl (fun r b => if b.location == k then some b else r)
          (dictFind acc k) := by
  induction bs with
  | nil => intro acc k; rfl
  | cons b rest ih =>
    intro acc k
    simp only [List.foldl_cons]
    rw [ih, dictFind_dictInsert]
    by_cases h : b.location = k <;> simp [h]

/-- The value the dedupe dict stores under a key is the last record of the
sequence with that location. -/
lemma dictFind_location_dict (bs : List SerializedBlock) (k : String) :
    dictFind (location_dict bs) k = last_seen_with_location k bs := by
  unfold location_dict last_seen_with_location
  exact dictFind_foldl_dictInsert bs [] k

lemma first_occurrence_keys_aux_nodup (ks : List String) :
    ∀ acc : List String, acc.Nodup →
      (ks.foldl (fun a k => if a.contains k then a else a ++ [k]) acc).Nodup := by
  induction ks with
  | nil => intro acc h; exact h
  | cons k rest ih =>
    intro acc h
    simp only [List.foldl_cons]
    by_cases hm : k ∈ acc
    · have hc : acc.contains k = true := by simpa [List.contains] using hm
      rw [if_pos hc]
      exact ih acc h
    · rw [if_neg (fun hcc => hm (by simpa [List.contains] using hcc))]
      exact ih _ (List.nodup_append_comm.mpr (List.nodup_cons.mpr ⟨hm, h⟩))

lemma first_occurrence_keys_nodup (ks : List String) :
    (first_occurrence_keys ks).Nodup :=
  first_occurrence_keys_aux_nodup ks [] List.nodup_nil

lemma mem_foldl_dictInsert (bs : List SerializedBlock) :
    ∀ (acc : List (String × SerializedBlock)) (p : String × SerializedBlock),
      p ∈ bs.foldl (fun d b => dictInsert d b.location b) acc →
      p ∈ acc ∨ p.2 ∈ bs := by
  induction bs with
  | nil => intro acc p hp; exact Or.inl hp
  | cons b rest ih =>
    intro acc p hp
    simp only [List.foldl_cons] at hp
    rcases ih _ p hp with h | h
    · rcases mem_dictInsert _ _ _ _ h with h' | h'
      · exact Or.inr (by simp [h'])
      · exact Or.inl h'
    · exact Or.inr (List.mem_cons_of_mem _ h)

lemma foldl_dictInsert_of_nodup (bs : List SerializedBlock) :
    ∀ acc : List (String × SerializedBlock),
      (acc.map Prod.fst ++ bs.map SerializedBlock.location).Nodup →
      bs.foldl (fun d b => dictInsert d b.location b) acc =
        acc ++ bs.map (fun b => (b.location, b)) := by
  induction bs with
  | nil => intro acc _; simp
  | cons b rest ih =>
    intro acc h
    have hnotin : b.location ∉ acc.map Prod.fst := by
      intro hmem
      exact (List.disjoint_of_nodup_append h) hmem (by simp)
    simp only [List.foldl_cons]
    rw [dictInsert_of_not_mem _ _ _ hnotin, ih]
    · simp
    · simp only [List.map_append, List.map_cons] at h ⊢
      simp only [List.map_nil]
      have : acc.map Prod.fst ++ b.location :: rest.map SerializedBlock.location =
          acc.map Prod.fst ++ [b.location] ++ rest.map SerializedBlock.location := by
        simp
      rw [this] at h
      simpa using h

/-! ## Helper lemmas: the annotation loop -/

lemma annotate_block_detached_case (g : String → List String)
    (i s ss u : Nat) (b : SerializedBlock)
    (h : b.xblock_data_json.detached ≠ 0) :
    annotate_block g i s ss u b =
      ({ b with
          order := (i : Int)
          xblock_data_json :=
            { b.xblock_data_json with
                section_idx := some 0
                subsection_idx := some 0
                unit_idx := some 0
                tags := some (g b.location) } },
        s, ss, u) := by
  unfold annotate_block
  simp [h]

lemma annotate_block_tree_case (g : String → List String)
    (i s ss u : Nat) (b : SerializedBlock)
    (h : b.xblock_data_json.detached = 0) :
    annotate_block g i s ss u b =
      ({ b with
          order := (i : Int)
          xblock_data_json :=
            { b.xblock_data_json with
                section_idx :=
                  some (claim_counter_update (s, ss, u) b.xblock_data_json.block_type).1
                subsection_idx :=
                  some (claim_counter_update (s, ss, u) b.xblock_data_json.block_type).2.1
                unit_idx :=
                  some (claim_counter_update (s, ss, u) b.xblock_data_json.block_type).2.2
                tags := some (g b.location) } },
        claim_counter_update (s, ss, u) b.xblock_data_json.block_type) := by
  unfold annotate_block claim_counter_update
  simp [h]

lemma annotate_block_order (g : String → List String)
    (i s ss u : Nat) (b : SerializedBlock) :
    ((annotate_block g i s ss u b).1).order = (i : Int) := by
  by_cases h : b.xblock_data_json.detached ≠ 0
  · rw [annotate_block_detached_case g i s ss u b h]
  · rw [annotate_block_tree_case g i s ss u b (by omega)]

lemma annotate_block_location (g : String → List String)
    (i s ss u : Nat) (b : SerializedBlock) :
    ((annotate_block g i s ss u b).1).location = b.location := by
  by_cases h : b.xblock_data_json.detached ≠ 0
  · rw [annotate_block_detached_case g i s ss u b h]
  · rw [annotate_block_tree_case g i s ss u b (by omega)]

lemma annotate_loop_orders (g : String → List String) :
    ∀ (bs : List SerializedBlock) (i s ss u : Nat)
      (d : List (String × SerializedBlock)),
      ((annotate_loop g i s ss u d bs).1).map SerializedBlock.order =
        (List.range' (i + 1) bs.length).map (fun n : Nat => (n : Int)) := by
  intro bs
  induction bs with
  | nil => intro i s ss u d; rfl
  | cons b rest ih =>
    intro i s ss u d
    simp only [annotate_loop, List.map_cons, List.length_cons, List.range'_succ]
    rw [annotate_block_order, ih]

lemma annotate_loop_locations (g : String → List String) :
    ∀ (bs : List SerializedBlock) (i s ss u : Nat)
      (d : List (String × SerializedBlock)),
      ((annotate_loop g i s ss u d bs).1).map SerializedBlock.location =
        bs.map SerializedBlock.location := by
  intro bs
  induction bs with
  | nil => intro i s ss u d; rfl
  | cons b rest ih =>
    intro i s ss u d
    simp only [annotate_loop, List.map_cons]
    rw [annotate_block_location, ih]

lemma annotate_loop_hierarchy (g : String → List String) :
    ∀ (bs : List SerializedBlock) (i s ss u : Nat)
      (d : List (String × SerializedBlock)),
      ((annotate_loop g i s ss u d bs).1).map hierarchy =
        claim_indices (s, ss, u) bs := by
  intro bs
  induction bs with
  | nil => intro i s ss u d; rfl
  | cons b rest ih =>
    intro i s ss u d
    by_cases h : b.xblock_data_json.detached ≠ 0
    · simp only [annotate_loop, annotate_block_detached_case g (i + 1) s ss u b h,
        List.map_cons, claim_indices, if_pos h]
      exact congrArg₂ List.cons rfl (ih (i + 1) s ss u _)
    · have h0 : b.xblock_data_json.detached = 0 := by omega
      simp only [annotate_loop, annotate_block_tree_case g (i + 1) s ss u b h0,
        List.map_cons, claim_indices, h, if_neg h]
      exact congrArg₂ List.cons rfl (ih (i + 1) _ _ _ _)

lemma annotate_loop_detached_zero (g : String → List String) :
    ∀ (bs : List SerializedBlock) (i s ss u : Nat)
      (d : List (String × SerializedBlock)) (b' : SerializedBlock),
      b' ∈ (annotate_loop g i s ss u d bs).1 →
      b'.xblock_data_json.detached ≠ 0 → hierarchy b' = (0, 0, 0) := by
  intro bs
  induction bs with
  | nil => intro i s ss u d b' hb _; simp [annotate_loop] at hb
  | cons b rest ih =>
    intro i s ss u d b' hb hdet
    simp only [annotate_loop, List.mem_cons] at hb
    rcases hb with hb | hb
    · subst hb
      by_cases h : b.xblock_data_json.detached ≠ 0
      · rw [annotate_block_detached_case g (i + 1) s ss u b h]
        rfl
      · have h0 : b.xblock_data_json.detached = 0 := by omega
        rw [annotate_block_tree_case g (i + 1) s ss u b h0] at hdet
        exact absurd h0 (by simpa using hdet)
    · exact ih (i + 1) _ _ _ _ b' hb hdet

lemma annotate_loop_dict (g : String → List String) :
    ∀ (bs : List SerializedBlock) (i s ss u : Nat)
      (d : List (String × SerializedBlock)),
      (annotate_loop g i s ss u d bs).2 =
        ((annotate_loop g i s ss u d bs).1).foldl
          (fun dd b => dictInsert dd b.location b) d := by
  intro bs
  induction bs with
  | nil => intro i s ss u d; rfl
  | cons b rest ih =>
    intro i s ss u d
    simp only [annotate_loop, List.foldl_cons]
    exact ih (i + 1) _ _ _ _

lemma annotate_loop_provenance (g : String → List String) :
    ∀ (bs : List SerializedBlock) (i s ss u : Nat)
      (d : List (String × SerializedBlock)) (b' : SerializedBlock),
      b' ∈ (annotate_loop g i s ss u d bs).1 →
      ∃ b0 ∈ bs,
        b'.xblock_data_json.detached = b0.xblock_data_json.detached ∧
        b'.xblock_data_json.graded = b0.xblock_data_json.graded ∧
        b'.xblock_data_json.section_idx.isSome ∧
        b'.xblock_data_json.subsection_idx.isSome ∧
        b'.xblock_data_json.unit_idx.isSome ∧
        b'.xblock_data_json.tags.isSome := by
  intro bs
  induction bs with
  | nil => intro i s ss u d b' hb; simp [annotate_loop] at hb
  | cons b rest ih =>
    intro i s ss u d b' hb
    simp only [annotate_loop, List.mem_cons] at hb
    rcases hb with hb | hb
    · subst hb
      refine ⟨b, List.mem_cons_self b rest, ?_⟩
      by_cases h : b.xblock_data_json.detached ≠ 0
      · rw [annotate_block_detached_case g (i + 1) s ss u b h]
        exact ⟨rfl, rfl, rfl, rfl, rfl, rfl⟩
      · rw [annotate_block_tree_case g (i + 1) s ss u b (by omega)]
        exact ⟨rfl, rfl, rfl, rfl, rfl, rfl⟩
    · rcases ih (i + 1) _ _ _ _ b' hb with ⟨b0, hb0, hrest⟩
      exact ⟨b0, List.mem_cons_of_mem _ hb0, hrest⟩

/-! ## Helper lemmas: traversal and serialization -/

mutual

theorem length_get_xblocks_recursive (dt : List String) (di tld : String) :
    ∀ b : XBlock, (get_xblocks_recursive dt di tld b).length = XBlock.count b
  | .mk loc dn g cm eo children => by
    simp only [get_xblocks_recursive, XBlock.count, List.length_cons]
    rw [length_get_xblocks_recursive_children dt di tld children]
    omega

theorem length_get_xblocks_recursive_children (dt : List String) (di tld : String) :
    ∀ bs : List XBlock,
      (get_xblocks_recursive_children dt di tld bs).length = XBlock.countList bs
  | [] => rfl
  | b :: bs => by
    simp only [get_xblocks_recursive_children, XBlock.countList, List.length_append]
    rw [length_get_xblocks_recursive dt di tld b,
      length_get_xblocks_recursive_children dt di tld bs]

end

mutual

theorem mem_gxr_image (dt : List String) (di tld : String) :
    ∀ (b : XBlock) (bb : SerializedBlock),
      bb ∈ get_xblocks_recursive dt di tld b →
      ∃ item : XBlock, bb = serialize_xblock item dt di tld
  | .mk loc dn g cm eo children, bb => by
    intro hb
    simp only [get_xblocks_recursive, List.mem_cons] at hb
    rcases hb with hb | hb
    · exact ⟨.mk loc dn g cm eo children, hb⟩
    · exact mem_gxr_children_image dt di tld children bb hb

theorem mem_gxr_children_image (dt : List String) (di tld : String) :
    ∀ (bs : List XBlock) (bb : SerializedBlock),
      bb ∈ get_xblocks_recursive_children dt di tld bs →
      ∃ item : XBlock, bb = serialize_xblock item dt di tld
  | [], bb => by intro hb; simp [get_xblocks_recursive_children] at hb
  | b :: bs, bb => by
    intro hb
    simp only [get_xblocks_recursive_children, List.mem_append] at hb
    rcases hb with hb | hb
    · exact mem_gxr_image dt di tld b bb hb
    · exact mem_gxr_children_image dt di tld bs bb hb

end

lemma mem_combined_items_image (cb : XBlock) (all : List XBlock)
    (dt : List String) (di tld : String) (bb : SerializedBlock)
    (hb : bb ∈ combined_items cb all dt di tld) :
    ∃ item : XBlock, bb = serialize_xblock item dt di tld := by
  unfold combined_items at hb
  rcases List.mem_append.mp hb with h | h
  · exact mem_gxr_image dt di tld cb bb h
  · unfold get_detached_xblocks at h
    rcases List.mem_map.mp h with ⟨item, _, rfl⟩
    exact ⟨item, rfl⟩

lemma serialize_xblock_order (item : XBlock) (dt : List String) (di tld : String) :
    (serialize_xblock item dt di tld).order = -1 := rfl

lemma serialize_xblock_detached_zero_one (item : XBlock) (dt : List String)
    (di tld : String) :
    (serialize_xblock item dt di tld).xblock_data_json.detached = 0 ∨
      (serialize_xblock item dt di tld).xblock_data_json.detached = 1 := by
  by_cases h : item.block_type ∈ dt
  · right
    simp [serialize_xblock, List.contains, h]
  · left
    simp [serialize_xblock, List.contains, h]

lemma serialize_xblock_graded_zero_one (item : XBlock) (dt : List String)
    (di tld : String) :
    (serialize_xblock item dt di tld).xblock_data_json.graded = 0 ∨
      (serialize_xblock item dt di tld).xblock_data_json.graded = 1 := by
  by_cases h : item.graded.getD false <;> simp [serialize_xblock, h]

lemma serialize_xblock_edited_on (item : XBlock) (dt : List String)
    (di tld : String) :
    (serialize_xblock item dt di tld).edited_on = item.edited_on.getD "" := rfl

lemma length_combined_items (cb : XBlock) (all : List XBlock)
    (dt : List String) (di tld : String) :
    (combined_items cb all dt di tld).length =
      XBlock.count cb +
        (all.filter (fun b => dt.contains b.block_type)).length := by
  unfold combined_items get_detached_xblocks
  rw [List.length_append, length_get_xblocks_recursive, List.length_map]

lemma serialize_item_eq_location_dict (cb : XBlock) (all : List XBlock)
    (dt : List String) (g : String → List String) (di tld : String) :
    serialize_item cb all dt g di tld =
      (location_dict (annotated_items cb all dt g di tld)).map Prod.snd := by
  unfold serialize_item annotated_items location_dict
  rw [annotate_loop_dict]

lemma mem_serialize_item (cb : XBlock) (all : List XBlock)
    (dt : List String) (g : String → List String) (di tld : String)
    (b : SerializedBlock) (hb : b ∈ serialize_item cb all dt g di tld) :
    b ∈ annotated_items cb all dt g di tld := by
  rw [serialize_item_eq_location_dict] at hb
  rcases List.mem_map.mp hb with ⟨p, hp, rfl⟩
  unfold location_dict at hp
  rcases mem_foldl_dictInsert _ [] p hp with h | h
  · simp at h
  · exact h

lemma strictlyIncreasingB_iff_chain :
    ∀ l : List Int, strictlyIncreasingB l = true ↔ l.Chain' (· < ·)
  | [] => by simp [strictlyIncreasingB]
  | [a] => by simp [strictlyIncreasingB]
  | a :: b :: rest => by
    rw [strictlyIncreasingB, List.chain'_cons, Bool.and_eq_true, decide_eq_true_iff,
      strictlyIncreasingB_iff_chain (b :: rest)]

/-! ## Claim C2 -/

/-- C2: over any combined record sequence the hierarchical indices equal the
three running counters of the claim ("chapter" increments section and resets
subsection and unit, "sequential" increments subsection and resets unit,
"vertical" increments unit, other types leave the counters, each record gets
the counters after its own update, detached records get zeros); and in the
scenario root, C1, S1, V1, C2, D the sections are 0, 1, 1, 1, 2, 0. -/
theorem c2_hierarchy_counters :
    (∀ (g : String → List String) (bs : List SerializedBlock)
      (i s ss u : Nat) (d : List (String × SerializedBlock)),
      ((annotate_loop g i s ss u d bs).1).map hierarchy =
        claim_indices (s, ss, u) bs) ∧
    (annotated_items scenario_root scenario_all ["html"] (fun _ => [])
        "dump-1" "t1").map (fun b => (hierarchy b).1) = [0, 1, 1, 1, 2, 0] := by
  constructor
  · intro g bs i s ss u d
    exact annotate_loop_hierarchy g bs i s ss u d
  · decide

/-! ## Claim C3 -/

/-- C3: before deduplication the `order` values of the combined sequence are
exactly the contiguous range 1..N (already in increasing order, hence equal
to their own sorted sequence), where N is the number of reachable tree nodes
plus the number of detached blocks, counted before deduplication. -/
theorem c3_orders_contiguous (cb : XBlock) (all : List XBlock)
    (dt : List String) (g : String → List String) (di tld : String) :
    (annotated_items cb all dt g di tld).map SerializedBlock.order =
      (List.range' 1 (XBlock.count cb +
        (all.filter (fun b => dt.contains b.block_type)).length)).map
        (fun n : Nat => (n : Int)) := by
  unfold annotated_items
  rw [annotate_loop_orders, length_combined_items]

/-! ## Claim C10 -/

/-- C10: `serialize_xblock` initializes `order` to the placeholder -1, but
every record returned by `serialize_item` has `order` at least 1; no -1
survives. -/
theorem c10_orders_positive (cb : XBlock) (all : List XBlock)
    (dt : List String) (g : String → List String) (di tld : String) :
    (∀ item : XBlock, (serialize_xblock item dt di tld).order = -1) ∧
    ∀ b ∈ serialize_item cb all dt g di tld, 1 ≤ b.order := by
  constructor
  · intro item
    rfl
  · intro b hb
    have hmem := mem_serialize_item cb all dt g di tld b hb
    have hord : b.order ∈
        (List.range' 1 (combined_items cb all dt di tld).length).map
          (fun n : Nat => (n : Int)) := by
      have hmm := List.mem_map_of_mem SerializedBlock.order hmem
      unfold annotated_items at hmm
      rwa [annotate_loop_orders] at hmm
    rcases List.mem_map.mp hord with ⟨n, hn, heq⟩
    have hrange := List.mem_range'_1.mp hn
    rw [← heq]
    exact_mod_cast hrange.1

/-- C10 (witness): the first record of the scenario output has order ≥ 1. -/
theorem c10_orders_positive_witness :
    1 ≤ (scenario_output.headD default_block).order :=
  (c10_orders_positive scenario_root scenario_all ["html"] (fun _ => [])
      "dump-1" "t1").2
    (scenario_output.headD default_block) (by decide)

/-! ## Claim C9 -/

/-- C9 (code refutation): the `replace("'", "'")` at line 185 replaces the
ASCII apostrophe with itself — a no-op — so an apostrophe-like character
such as U+2019 is left as is, and two display names differing only in the
apostrophe character serialize to different strings. -/
theorem c9_apostrophe_not_normalized :
    (serialize_xblock (.mk (mkKey "html" "x") "don’t" none none none [])
        [] "d" "t").display_name = "don’t" ∧
    (serialize_xblock (.mk (mkKey "html" "x") "don't" none none none [])
        [] "d" "t").display_name = "don't" ∧
    ("don’t" : String) ≠ "don't" := by
  refine ⟨by decide, by decide, by decide⟩

/-! ## Claim C6 -/

/-- C6: every output record whose detached flag is set has
section = subsection = unit = 0, and processing a detached record leaves the
three running counters unchanged. -/
theorem c6_detached_zeroed (cb : XBlock) (all : List XBlock)
    (dt : List String) (g : String → List String) (di tld : String) :
    (∀ b ∈ serialize_item cb all dt g di tld,
      b.xblock_data_json.detached ≠ 0 → hierarchy b = (0, 0, 0)) ∧
    (∀ (i s ss u : Nat) (b : SerializedBlock),
      b.xblock_data_json.detached ≠ 0 →
      (annotate_block g i s ss u b).2 = (s, ss, u)) := by
  constructor
  · intro b hb hdet
    have hmem := mem_serialize_item cb all dt g di tld b hb
    unfold annotated_items at hmem
    exact annotate_loop_detached_zero g _ 0 0 0 0 [] b hmem hdet
  · intro i s ss u b hdet
    rw [annotate_block_detached_case g i s ss u b hdet]

/-- C6 (witness): the detached record D of the scenario has zeroed indices,
and a detached record leaves concrete counters (3, 2, 1) unchanged. -/
theorem c6_detached_zeroed_witness :
    hierarchy (scenario_output.getLastD default_block) = (0, 0, 0) ∧
    (annotate_block (fun _ => []) 7 3 2 1
        (serialize_xblock scenario_d ["html"] "dump-1" "t1")).2 = (3, 2, 1) :=
  ⟨(c6_detached_zeroed scenario_root scenario_all ["html"] (fun _ => [])
        "dump-1" "t1").1
      (scenario_output.getLastD default_block) (by decide) (by decide),
   (c6_detached_zeroed scenario_root scenario_all ["html"] (fun _ => [])
        "dump-1" "t1").2
      7 3 2 1 (serialize_xblock scenario_d ["html"] "dump-1" "t1") (by decide)⟩

/-! ## Claim C4 -/

/-- C4: the dict dedupe keeps, for each identifier, the last-seen record of
the combined sequence, while the output iterates surviving identifiers in
first-occurrence order; `serialize_item` returns exactly the values of that
dict. -/
theorem c4_dedupe_semantics (bs : List SerializedBlock) :
    ((location_dict bs).map Prod.fst =
      first_occurrence_keys (bs.map SerializedBlock.location)) ∧
    (∀ p ∈ location_dict bs, last_seen_with_location p.1 bs = some p.2) ∧
    (∀ (cb : XBlock) (all : List XBlock) (dt : List String)
      (g : String → List String) (di tld : String),
      serialize_item cb all dt g di tld =
        (location_dict (annotated_items cb all dt g di tld)).map Prod.snd) := by
  refine ⟨keys_location_dict bs, ?_, ?_⟩
  · intro p hp
    have hn : ((location_dict bs).map Prod.fst).Nodup := by
      rw [keys_location_dict]
      exact first_occurrence_keys_nodup _
    rw [← dictFind_location_dict]
    exact dictFind_of_mem_nodup _ hn p hp
  · intro cb all dt g di tld
    exact serialize_item_eq_location_dict cb all dt g di tld

/-- C4 (witness): in the duplicate-location course the dict's entry for the
duplicated html block is the last-seen (detached) record. -/
theorem c4_dedupe_semantics_witness :
    last_seen_with_location
        ((location_dict (annotated_items dup_root [dup_html] ["html"]
            (fun _ => []) "dump-2" "t2")).headD ("", default_block)).1
        (annotated_items dup_root [dup_html] ["html"] (fun _ => []) "dump-2" "t2") =
      some ((location_dict (annotated_items dup_root [dup_html] ["html"]
            (fun _ => []) "dump-2" "t2")).headD ("", default_block)).2 :=
  (c4_dedupe_semantics
      (annotated_items dup_root [dup_html] ["html"] (fun _ => []) "dump-2" "t2")).2.1
    ((location_dict (annotated_items dup_root [dup_html] ["html"]
        (fun _ => []) "dump-2" "t2")).headD ("", default_block))
    (by decide)

/-! ## Claim C7 -/

/-- C7 (counterexample): with a detached html block that is also reachable
in the tree ahead of a vertical sibling, the output orders are [1, 4, 3] —
the surviving `order` values read in output order are not strictly
increasing. -/
theorem c7_counterexample :
    strictlyIncreasingB (dup_output.map SerializedBlock.order) = false := by
  decide

/-- C7 (amended): when the combined sequence has no duplicate stripped
locations (no overlap between the detached list and the traversal — the
situation the spec calls normal operation), the `order` values remaining
after deduplication, read in output order, are strictly increasing. -/
theorem c7_orders_increasing (cb : XBlock) (all : List XBlock)
    (dt : List String) (g : String → List String) (di tld : String)
    (hnd : ((combined_items cb all dt di tld).map SerializedBlock.location).Nodup) :
    strictlyIncreasingB
      ((serialize_item cb all dt g di tld).map SerializedBlock.order) = true := by
  have hloc : (annotated_items cb all dt g di tld).map SerializedBlock.location =
      (combined_items cb all dt di tld).map SerializedBlock.location := by
    unfold annotated_items
    exact annotate_loop_locations g _ 0 0 0 0 []
  have hnd' : ((annotated_items cb all dt g di tld).map
      SerializedBlock.location).Nodup := by
    rw [hloc]
    exact hnd
  have hdict : location_dict (annotated_items cb all dt g di tld) =
      (annotated_items cb all dt g di tld).map (fun b => (b.location, b)) := by
    unfold location_dict
    have hfold := foldl_dictInsert_of_nodup
      (annotated_items cb all dt g di tld) [] (by simpa using hnd')
    simpa using hfold
  rw [serialize_item_eq_location_dict, hdict, List.map_map, List.map_map]
  have hcomp : ((SerializedBlock.order ∘ Prod.snd) ∘
      fun b : SerializedBlock => (b.location, b)) = SerializedBlock.order := rfl
  rw [hcomp]
  have horders : (annotated_items cb all dt g di tld).map SerializedBlock.order =
      (List.range' 1 (combined_items cb all dt di tld).length).map
        (fun n : Nat => (n : Int)) := by
    unfold annotated_items
    rw [annotate_loop_orders]
  rw [horders]
  refine (strictlyIncreasingB_iff_chain _).mpr ?_
  rw [List.chain'_map]
  refine List.Pairwise.chain' ?_
  exact (List.pairwise_lt_range' 1 _).imp (fun h => by exact_mod_cast h)

/-- C7 (witness): the scenario course has no duplicate locations and its
output orders are strictly increasing. -/
theorem c7_orders_increasing_witness :
    strictlyIncreasingB (scenario_output.map SerializedBlock.order) = true :=
  c7_orders_increasing scenario_root scenario_all ["html"] (fun _ => [])
    "dump-1" "t1" (by decide)

/-! ## Claim C8 -/

/-- C8: every record of the output has exactly the top-level fields org,
course_key, location, display_name, xblock_data_json, order, edited_on,
dump_id, time_last_dumped in that order; the embedded blob holds course,
run, block_type, detached (0/1), graded (0/1), completion_mode, section,
subsection, unit, tags; and edited_on is the stringified attribute, empty
when absent. -/
theorem c8_row_fields (cb : XBlock) (all : List XBlock)
    (dt : List String) (g : String → List String) (di tld : String) :
    (∀ b ∈ serialize_item cb all dt g di tld,
      (blockFields b).map Prod.fst =
        ["org", "course_key", "location", "display_name", "xblock_data_json",
         "order", "edited_on", "dump_id", "time_last_dumped"] ∧
      (jsonFields b.xblock_data_json).map Prod.fst =
        ["course", "run", "block_type", "detached", "graded",
         "completion_mode", "section", "subsection", "unit", "tags"] ∧
      (b.xblock_data_json.detached = 0 ∨ b.xblock_data_json.detached = 1) ∧
      (b.xblock_data_json.graded = 0 ∨ b.xblock_data_json.graded = 1)) ∧
    (∀ item : XBlock,
      (serialize_xblock item dt di tld).edited_on = item.edited_on.getD "" ∧
      (item.edited_on = none →
        (serialize_xblock item dt di tld).edited_on = "")) := by
  constructor
  · intro b hb
    have hmem := mem_serialize_item cb all dt g di tld b hb
    unfold annotated_items at hmem
    rcases annotate_loop_provenance g _ 0 0 0 0 [] b hmem with
      ⟨b0, hb0, hdet, hgr, hs1, hs2, hs3, hs4⟩
    rcases Option.isSome_iff_exists.mp hs1 with ⟨v1, hv1⟩
    rcases Option.isSome_iff_exists.mp hs2 with ⟨v2, hv2⟩
    rcases Option.isSome_iff_exists.mp hs3 with ⟨v3, hv3⟩
    rcases Option.isSome_iff_exists.mp hs4 with ⟨v4, hv4⟩
    rcases mem_combined_items_image cb all dt di tld b0 hb0 with ⟨item, rfl⟩
    refine ⟨rfl, ?_, ?_, ?_⟩
    · simp [jsonFields, hv1, hv2, hv3, hv4]
    · rw [hdet]
      exact serialize_xblock_detached_zero_one item dt di tld
    · rw [hgr]
      exact serialize_xblock_graded_zero_one item dt di tld
  · intro item
    refine ⟨rfl, fun h => ?_⟩
    rw [serialize_xblock_edited_on, h]
    rfl

/-- C8 (witness): the blob of the first scenario record carries the ten keys
in order. -/
theorem c8_row_fields_witness :
    (jsonFields ((scenario_output.headD default_block).xblock_data_json)).map
        Prod.fst =
      ["course", "run", "block_type", "detached", "graded",
       "completion_mode", "section", "subsection", "unit", "tags"] :=
  (((c8_row_fields scenario_root scenario_all ["html"] (fun _ => [])
      "dump-1" "t1").1
    (scenario_output.headD default_block) (by decide))).2.1
